import Mathlib

/-!
Shallow embedding of `VRuntimeFilterSlots`
(src/be/src/exprs/runtime_filter_slots.h) from the Doris repository.

The coordinator owns an ordered list of runtime-filter handles
(`IRuntimeFilter`) plus a borrowed list of build-expression contexts.
Collaborator calls on a handle (`send_filter_size`, `change_to_bloom_filter`,
`init_bloom_filter`, `publish`) are fallible in the C++ code
(`RETURN_IF_ERROR`); each handle carries a boolean oracle for the outcome of
each such call, and operations return a `Status` plus the mutated handle list
plus an event trace recording which collaborator calls were actually issued,
in program order.
-/

namespace doris

/-- Filter strategy tags mirrored from `RuntimeFilterType`. -/
inductive RuntimeFilterType where
  | IN_FILTER
  | MIN_MAX_FILTER
  | BLOOM_FILTER
  | IN_OR_BLOOM_FILTER
  deriving DecidableEq, Repr

/-- State of one runtime-filter handle, as observed through the accessor
surface the coordinator uses: `filter_id()`, `expr_order()`, `type()`,
`get_real_type()`, the `ignored`/`disabled` flags, `need_sync_filter_size()`,
`get_synced_size()`, the shared-context reference, and the values ingested so
far.  The four `_ok` fields are outcome oracles for the handle's fallible
collaborator calls. -/
structure IRuntimeFilter where
  filter_id : Nat
  expr_order : Nat
  ftype : RuntimeFilterType
  real_type : RuntimeFilterType
  ignored : Bool
  disabled : Bool
  need_sync_filter_size : Bool
  synced_size : Nat
  shared_ref : Nat
  inserted : List Nat
  has_dependency : Bool
  send_ok : Bool
  change_ok : Bool
  init_bloom_ok : Bool
  publish_ok : Bool
  deriving DecidableEq, Repr

/-- Mirrors `IRuntimeFilter::set_ignored()`. -/
def set_ignored (f : IRuntimeFilter) : IRuntimeFilter := { f with ignored := true }

/-- Mirrors `IRuntimeFilter::set_disabled()`. -/
def set_disabled (f : IRuntimeFilter) : IRuntimeFilter := { f with disabled := true }

/-- Result of a coordinator operation: `Status::OK()`, the
`Status::Aborted("invalid runtime filter id: ...")` carrying the missing
filter id, or a collaborator error propagated by `RETURN_IF_ERROR`. -/
inductive Status where
  | ok
  | aborted (filter_id : Nat)
  | error
  deriving DecidableEq, Repr

/-- Collaborator calls issued by the coordinator, recorded in program order;
indices are positions in the group's handle list. -/
inductive Event where
  | set_finish_dependency (idx : Nat)
  | send_size (idx : Nat)
  | init_bloom (idx : Nat) (size : Nat)
  | publish_one (idx : Nat)
  deriving DecidableEq, Repr

/-- Mirrors `VRuntimeFilterSlots::get_real_size`: synced size when the filter takes
part in global size sync, local hash-table size otherwise. -/
def get_real_size (f : IRuntimeFilter) (hash_table_size : Nat) : Nat :=
  if f.need_sync_filter_size then f.synced_size else hash_table_size

/-- First loop of `send_filter_size`: `set_finish_dependency` on every handle
with `need_sync_filter_size()`, as a trace of events (`i` is the position of
the first handle). -/
def dep_events : List IRuntimeFilter → Nat → List Event
  | [], _ => []
  | f :: fs, i =>
    if f.need_sync_filter_size then
      Event.set_finish_dependency i :: dep_events fs (i + 1)
    else dep_events fs (i + 1)

/-- Second loop of `send_filter_size`: `runtime_filter->send_filter_size` on
every handle with `need_sync_filter_size()`, stopping at the first
collaborator error (`RETURN_IF_ERROR`). -/
def send_loop : List IRuntimeFilter → Nat → Status × List Event
  | [], _ => (Status.ok, [])
  | f :: fs, i =>
    if f.need_sync_filter_size then
      if f.send_ok then
        let r := send_loop fs (i + 1)
        (r.1, Event.send_size i :: r.2)
      else (Status.error, [Event.send_size i])
    else send_loop fs (i + 1)

/-- Mirrors `VRuntimeFilterSlots::send_filter_size`: early-out on an empty group;
otherwise register the finish dependency on all size-sync handles, then send
every size report. -/
def send_filter_size (fs : List IRuntimeFilter) : Status × List IRuntimeFilter × List Event :=
  if fs.isEmpty then (Status.ok, fs, [])
  else
    let armed := fs.map fun f =>
      if f.need_sync_filter_size then { f with has_dependency := true } else f
    let r := send_loop armed 0
    (r.1, armed, dep_events fs 0 ++ r.2)

/-- First loop of `disable_meaningless_filters`: walk the group threading the
`has_in_filter` set of `expr_order` values; skip inactive handles, non-IN real
types, and hybrid (`IN_OR_BLOOM_FILTER`) handles that do not need size sync;
disable an active IN filter whose `expr_order` was already seen, otherwise
record its `expr_order`. -/
def dmf_pass1 : List IRuntimeFilter → List Nat → List IRuntimeFilter × List Nat
  | [], seen => ([], seen)
  | f :: fs, seen =>
    if f.ignored || f.disabled then
      let r := dmf_pass1 fs seen
      (f :: r.1, r.2)
    else if f.real_type ≠ RuntimeFilterType.IN_FILTER then
      let r := dmf_pass1 fs seen
      (f :: r.1, r.2)
    else if !f.need_sync_filter_size && f.ftype == RuntimeFilterType.IN_OR_BLOOM_FILTER then
      let r := dmf_pass1 fs seen
      (f :: r.1, r.2)
    else if f.expr_order ∈ seen then
      let r := dmf_pass1 fs seen
      (set_disabled f :: r.1, r.2)
    else
      let r := dmf_pass1 fs (f.expr_order :: seen)
      (f :: r.1, r.2)

/-- Body of the second loop of `disable_meaningless_filters` on one handle:
skip inactive handles and handles whose real type is IN or whose `expr_order`
is not in the `has_in_filter` set; disable the rest. -/
def dmf_pass2_step (seen : List Nat) (f : IRuntimeFilter) : IRuntimeFilter :=
  if f.ignored || f.disabled then f
  else if f.real_type = RuntimeFilterType.IN_FILTER ∨ f.expr_order ∉ seen then f
  else set_disabled f

/-- Second loop of `disable_meaningless_filters`: disable every active
non-IN-real-type handle whose `expr_order` is in the `has_in_filter` set. -/
def dmf_pass2 (seen : List Nat) (fs : List IRuntimeFilter) : List IRuntimeFilter :=
  fs.map (dmf_pass2_step seen)

/-- Mirrors `VRuntimeFilterSlots::disable_meaningless_filters` (always returns
`Status::OK()`; the handle-list result is the interesting part). -/
def disable_meaningless_filters (fs : List IRuntimeFilter) : List IRuntimeFilter :=
  let r := dmf_pass1 fs []
  dmf_pass2 r.2 r.1

/-- Mirrors `VRuntimeFilterSlots::ignore_all_filters`. -/
def ignore_all_filters (fs : List IRuntimeFilter) : Status × List IRuntimeFilter :=
  (Status.ok, fs.map set_ignored)

/-- Mirrors `VRuntimeFilterSlots::disable_all_filters`. -/
def disable_all_filters (fs : List IRuntimeFilter) : Status × List IRuntimeFilter :=
  (Status.ok, fs.map set_disabled)

/-- The hybrid-to-bloom transition step of `init_filters` on one handle:
`change_to_bloom_filter` rewrites the real type when the declared type is
`IN_OR_BLOOM_FILTER` and the resolved size exceeds
`runtime_filter_max_in_num()`. -/
def init_one_type (max_in_num local_size : Nat) (f : IRuntimeFilter) : IRuntimeFilter :=
  if f.ftype = RuntimeFilterType.IN_OR_BLOOM_FILTER ∧
      get_real_size f local_size > max_in_num then
    { f with real_type := RuntimeFilterType.BLOOM_FILTER }
  else f

/-- Body of one iteration of `VRuntimeFilterSlots::init_filters` on the
handle at position `i`: skip an ignored handle; on a hybrid handle over the
IN threshold call `change_to_bloom_filter` (fallible); then, whenever the
(possibly updated) real type is `BLOOM_FILTER`, call `init_bloom_filter` with
the resolved size (fallible). -/
def init_step (max_in_num local_size : Nat) (i : Nat) (f : IRuntimeFilter) :
    Status × IRuntimeFilter × List Event :=
  if f.ignored then (Status.ok, f, [])
  else if f.ftype = RuntimeFilterType.IN_OR_BLOOM_FILTER ∧
      get_real_size f local_size > max_in_num then
    if f.change_ok then
      if f.init_bloom_ok then
        (Status.ok, { f with real_type := RuntimeFilterType.BLOOM_FILTER },
          [Event.init_bloom i
            (get_real_size { f with real_type := RuntimeFilterType.BLOOM_FILTER } local_size)])
      else
        (Status.error, { f with real_type := RuntimeFilterType.BLOOM_FILTER },
          [Event.init_bloom i
            (get_real_size { f with real_type := RuntimeFilterType.BLOOM_FILTER } local_size)])
    else (Status.error, f, [])
  else if f.real_type = RuntimeFilterType.BLOOM_FILTER then
    if f.init_bloom_ok then
      (Status.ok, f, [Event.init_bloom i (get_real_size f local_size)])
    else (Status.error, f, [Event.init_bloom i (get_real_size f local_size)])
  else (Status.ok, f, [])

/-- Mirrors `VRuntimeFilterSlots::init_filters` as a loop from position `i`:
run `init_step` on each handle in order; a collaborator error aborts the loop
(`RETURN_IF_ERROR`), leaving the remaining handles untouched. -/
def init_filters (max_in_num local_size : Nat) :
    List IRuntimeFilter → Nat → Status × List IRuntimeFilter × List Event
  | [], _ => (Status.ok, [], [])
  | f :: fs, i =>
    let s := init_step max_in_num local_size i f
    match s.1 with
    | Status.ok =>
      let r := init_filters max_in_num local_size fs (i + 1)
      (r.1, s.2.1 :: r.2.1, s.2.2 ++ r.2.2)
    | st => (st, s.2.1 :: fs, s.2.2)

/-- The column lookup of `VRuntimeFilterSlots::insert`:
`_build_expr_context[expr_order]->get_last_result_column_id()` followed by
`block->get_by_position(result_column_id)`.  Each expression context is
modelled by its last-result column id, a block by the list of column tags at
each position; `none` models the thrown contract-violation exception. -/
def lookup_col (build_expr_context block : List Nat) (f : IRuntimeFilter) : Option Nat :=
  (build_expr_context.get? f.expr_order).bind fun col_id => block.get? col_id

/-- Mirrors `VRuntimeFilterSlots::insert`: for each handle the column is looked up
first; only then are ignored/disabled handles skipped, and active handles get
the column appended (`insert_batch`).  A failed lookup throws: the flag is
`false` and the handles from that point on are left untouched (mutations
already made persist). -/
def insert_loop (build_expr_context block : List Nat) :
    List IRuntimeFilter → Bool × List IRuntimeFilter
  | [] => (true, [])
  | f :: fs =>
    match lookup_col build_expr_context block f with
    | none => (false, f :: fs)
    | some col =>
      let f1 := if f.ignored || f.disabled then f
                else { f with inserted := f.inserted ++ [col] }
      let r := insert_loop build_expr_context block fs
      (r.1, f1 :: r.2)

/-- Mirrors `VRuntimeFilterSlots::publish`: call `publish` on every handle in group
order, stopping at the first collaborator error (`RETURN_IF_ERROR`).  There is
no ignored/disabled check in this loop. -/
def publish_loop : List IRuntimeFilter → Nat → Status × List Event
  | [], _ => (Status.ok, [])
  | f :: fs, i =>
    if f.publish_ok then
      let r := publish_loop fs (i + 1)
      (r.1, Event.publish_one i :: r.2)
    else (Status.error, [Event.publish_one i])

/-- Insert-or-assign on the shared context's id-to-reference map
(`context->runtime_filters[id] = ref`). -/
def map_set : List (Nat × Nat) → Nat → Nat → List (Nat × Nat)
  | [], k, v => [(k, v)]
  | kv :: rest, k, v =>
    if kv.1 = k then (k, v) :: rest else kv :: map_set rest k v

/-- Mirrors `VRuntimeFilterSlots::copy_to_shared_context`: export every handle's
shared reference keyed by its filter id. -/
def copy_to_shared_context (fs : List IRuntimeFilter) (ctx : List (Nat × Nat)) :
    List (Nat × Nat) :=
  fs.foldl (fun acc f => map_set acc f.filter_id f.shared_ref) ctx

/-- Mirrors `VRuntimeFilterSlots::copy_from_shared_context`: look up each handle's
filter id in the shared context; a missing id aborts with that id, after the
handles before it have already taken their shared references. -/
def copy_from_shared_context (ctx : List (Nat × Nat)) :
    List IRuntimeFilter → Status × List IRuntimeFilter
  | [] => (Status.ok, [])
  | f :: fs =>
    match ctx.lookup f.filter_id with
    | none => (Status.aborted f.filter_id, f :: fs)
    | some r =>
      let rest := copy_from_shared_context ctx fs
      (rest.1, { f with shared_ref := r } :: rest.2)

/-- Mirrors `VRuntimeFilterSlots::empty`. -/
def empty (fs : List IRuntimeFilter) : Bool := fs.isEmpty

/-- Predicate for the spec's "active membership-set filter on `expr_order` e":
non-ignored, non-disabled, real type `IN_FILTER`, on expression `e`. -/
def active_in (e : Nat) (f : IRuntimeFilter) : Bool :=
  !f.ignored && !f.disabled && f.real_type == RuntimeFilterType.IN_FILTER &&
    f.expr_order == e

/-- Like `active_in`, further requiring that pass 1 of
`disable_meaningless_filters` counts the filter: it needs size sync or is not
a declared hybrid (`IN_OR_BLOOM_FILTER`). -/
def active_countable_in (e : Nat) (f : IRuntimeFilter) : Bool :=
  active_in e f &&
    (f.need_sync_filter_size || !(f.ftype == RuntimeFilterType.IN_OR_BLOOM_FILTER))

/-- Flag ordering: `g` has every flag that `f` has. -/
def flag_le (f g : IRuntimeFilter) : Prop :=
  (f.ignored = true → g.ignored = true) ∧ (f.disabled = true → g.disabled = true)

/-- One coordinator operation, with its non-handle arguments. -/
inductive Op where
  | negotiate
  | materialize (max_in_num local_size : Nat)
  | prune
  | ignore_all
  | disable_all
  | ingest (build_expr_context block : List Nat)
  | publish
  | export_state
  | import_state (ctx : List (Nat × Nat))

/-- Effect of one coordinator operation on the handle list (statuses and
traces projected away; `publish` and `copy_to_shared_context` do not mutate
the handles). -/
def applyOp : Op → List IRuntimeFilter → List IRuntimeFilter
  | Op.negotiate, fs => (send_filter_size fs).2.1
  | Op.materialize max_in_num local_size, fs => (init_filters max_in_num local_size fs 0).2.1
  | Op.prune, fs => disable_meaningless_filters fs
  | Op.ignore_all, fs => (ignore_all_filters fs).2
  | Op.disable_all, fs => (disable_all_filters fs).2
  | Op.ingest build_expr_context block, fs => (insert_loop build_expr_context block fs).2
  | Op.publish, fs => fs
  | Op.export_state, fs => fs
  | Op.import_state ctx, fs => (copy_from_shared_context ctx fs).2

/-- Run a sequence of coordinator operations on a handle list. -/
def run_ops (ops : List Op) (fs : List IRuntimeFilter) : List IRuntimeFilter :=
  ops.foldl (fun s op => applyOp op s) fs

/-- Fixture: a plain active IN filter on expression 0, all collaborator calls
succeeding. -/
def f0 : IRuntimeFilter :=
  { filter_id := 0, expr_order := 0, ftype := RuntimeFilterType.IN_FILTER,
    real_type := RuntimeFilterType.IN_FILTER, ignored := false, disabled := false,
    need_sync_filter_size := false, synced_size := 0, shared_ref := 0, inserted := [],
    has_dependency := false, send_ok := true, change_ok := true, init_bloom_ok := true,
    publish_ok := true }

/-- Fixture: a hybrid (`IN_OR_BLOOM_FILTER`) filter on expression 0 whose real
type is still IN and which does not need size sync. -/
def hyb_in : IRuntimeFilter := { f0 with ftype := RuntimeFilterType.IN_OR_BLOOM_FILTER }

/-- Fixture: a filter taking part in global size sync, synced size 4. -/
def sync_f : IRuntimeFilter := { f0 with need_sync_filter_size := true, synced_size := 4 }

/-- Fixture: a disabled filter. -/
def dis_f : IRuntimeFilter := { f0 with disabled := true }

/-- Fixture: filter with id 1. -/
def fA : IRuntimeFilter := { f0 with filter_id := 1 }

/-- Fixture: filter with id 2. -/
def fB : IRuntimeFilter := { f0 with filter_id := 2 }

/-- C8: `get_real_size` is pure (a Lean function by construction) and returns
the handle's synced size when `need_sync_filter_size` is true, the local
cardinality otherwise. -/
theorem get_real_size_spec (f : IRuntimeFilter) (hash_table_size : Nat) :
    (f.need_sync_filter_size = true → get_real_size f hash_table_size = f.synced_size) ∧
    (f.need_sync_filter_size = false → get_real_size f hash_table_size = hash_table_size) := by
  constructor <;> intro hs <;> simp [get_real_size, hs]

/-- Witness for C8 at the concrete handles `sync_f` (needs sync, synced size 4)
and `f0` (no sync). -/
theorem get_real_size_spec_witness :
    get_real_size sync_f 7 = 4 ∧ get_real_size f0 7 = 7 :=
  ⟨(get_real_size_spec sync_f 7).1 rfl, (get_real_size_spec f0 7).2 rfl⟩

/-- C9: `empty` is true exactly on a group with no handles, and every
coordinator operation on an empty group returns success, produces no events,
and leaves every piece of state unchanged. -/
theorem empty_group_ops (max_in_num local_size : Nat) (build_expr_context block : List Nat)
    (ctx : List (Nat × Nat)) :
    (∀ fs : List IRuntimeFilter, empty fs = true ↔ fs = []) ∧
    send_filter_size [] = (Status.ok, [], []) ∧
    init_filters max_in_num local_size [] 0 = (Status.ok, [], []) ∧
    disable_meaningless_filters [] = [] ∧
    ignore_all_filters [] = (Status.ok, []) ∧
    disable_all_filters [] = (Status.ok, []) ∧
    insert_loop build_expr_context block [] = (true, []) ∧
    publish_loop [] 0 = (Status.ok, []) ∧
    copy_to_shared_context [] ctx = ctx ∧
    copy_from_shared_context ctx [] = (Status.ok, []) := by
  refine ⟨fun fs => ?_, rfl, rfl, rfl, rfl, rfl, rfl, rfl, rfl, rfl⟩
  simp [empty, List.isEmpty_iff]

/-- Witness for C9: the emptiness test at the empty group and at a singleton. -/
theorem empty_group_ops_witness :
    empty ([] : List IRuntimeFilter) = true ∧ ¬ empty [f0] = true :=
  ⟨((empty_group_ops 0 0 [] [] []).1 []).mpr rfl,
   fun h => by simpa using ((empty_group_ops 0 0 [] [] []).1 [f0]).mp h⟩

/-- A handle whose ignored or disabled flag is set is returned unchanged by
`insert_loop`, whether or not the call as a whole fails. -/
lemma insert_loop_suppressed (build_expr_context block : List Nat) :
    ∀ (fs : List IRuntimeFilter) (i : Nat) (f : IRuntimeFilter),
      fs[i]? = some f → (f.ignored = true ∨ f.disabled = true) →
      (insert_loop build_expr_context block fs).2[i]? = some f
  | [], i, f, hget, _ => by simp at hget
  | g :: fs, i, f, hget, hflag => by
    unfold insert_loop
    cases hcol : lookup_col build_expr_context block g with
    | none => simpa using hget
    | some col =>
      cases i with
      | zero =>
        have hgf : g = f := by simpa using hget
        subst hgf
        have hb : (g.ignored || g.disabled) = true := by
          rcases hflag with h | h <;> simp [h]
        simp [hb]
      | succ n =>
        simp at hget ⊢
        exact insert_loop_suppressed build_expr_context block fs n f hget hflag

/-- When `publish` returns success, the publish operation was invoked on every
handle (positions offset by `b`). -/
lemma publish_loop_ok_mem :
    ∀ (fs : List IRuntimeFilter) (b : Nat), (publish_loop fs b).1 = Status.ok →
      ∀ i, i < fs.length → Event.publish_one (b + i) ∈ (publish_loop fs b).2
  | [], _, _, i, hi => by simp at hi
  | f :: fs, b, hok, i, hi => by
    unfold publish_loop at hok ⊢
    by_cases hp : f.publish_ok = true
    · simp only [hp, if_true] at hok ⊢
      cases i with
      | zero => simp
      | succ n =>
        have := publish_loop_ok_mem fs (b + 1) hok n (by simpa using hi)
        simp only [List.mem_cons]
        right
        have harith : b + 1 + n = b + (n + 1) := by omega
        rwa [harith] at this
    · simp [hp] at hok

/-- C2 counterexample: a disabled handle's own publish operation is still
invoked by the coordinator's `publish` loop, contradicting the claim that the
disabled flag suppresses publication of that handle. -/
theorem publish_not_suppressed_counterexample :
    dis_f.disabled = true ∧ (publish_loop [dis_f] 0).2 = [Event.publish_one 0] ∧
    (publish_loop [dis_f] 0).1 = Status.ok := by decide

/-- C2 (amended): once a handle's ignored or disabled flag is set, `insert`
appends nothing to that handle (the handle is returned untouched), but
`publish` still invokes every handle's publish operation — on a successful
run the publish event of every position, flagged or not, is in the trace. -/
theorem flags_suppress_ingest_not_publish (build_expr_context block : List Nat)
    (fs : List IRuntimeFilter) :
    (∀ (i : Nat) (f : IRuntimeFilter), fs[i]? = some f →
      (f.ignored = true ∨ f.disabled = true) →
      (insert_loop build_expr_context block fs).2[i]? = some f) ∧
    ((publish_loop fs 0).1 = Status.ok →
      ∀ i, i < fs.length → Event.publish_one i ∈ (publish_loop fs 0).2) := by
  constructor
  · exact fun i f hget hflag => insert_loop_suppressed build_expr_context block fs i f hget hflag
  · intro hok i hi
    have := publish_loop_ok_mem fs 0 hok i hi
    simpa using this

/-- Witness for C2 (amended) at a singleton group holding a disabled filter. -/
theorem flags_suppress_ingest_not_publish_witness :
    (insert_loop [0] [9] [dis_f]).2[0]? = some dis_f ∧
    Event.publish_one 0 ∈ (publish_loop [dis_f] 0).2 :=
  ⟨(flags_suppress_ingest_not_publish [0] [9] [dis_f]).1 0 dis_f rfl (Or.inr rfl),
   (flags_suppress_ingest_not_publish [0] [9] [dis_f]).2 rfl 0 (by decide)⟩

/-- C10: `insert` fails (the contract-violation exception fires) exactly when
some handle's column lookup fails — the lookup is performed for every handle,
ignored/disabled ones included, before the flag check. -/
theorem insert_lookup_before_flag_check (build_expr_context block : List Nat) :
    ∀ fs : List IRuntimeFilter,
      ((insert_loop build_expr_context block fs).1 = false ↔
        ∃ f ∈ fs, lookup_col build_expr_context block f = none)
  | [] => by simp [insert_loop]
  | f :: fs => by
    unfold insert_loop
    cases hcol : lookup_col build_expr_context block f with
    | none => simp [hcol]
    | some col =>
      have ih := insert_lookup_before_flag_check build_expr_context block fs
      simp only [List.mem_cons]
      constructor
      · intro h
        rcases ih.mp (by simpa using h) with ⟨g, hg, hgl⟩
        exact ⟨g, Or.inr hg, hgl⟩
      · rintro ⟨g, hg | hg, hgl⟩
        · rw [hg] at hgl; simp [hgl] at hcol
        · simpa using ih.mpr ⟨g, hg, hgl⟩

/-- Witness for C10: a suppressed (disabled) handle whose result column is
missing from the block still makes `insert` fail. -/
theorem insert_lookup_before_flag_check_witness :
    (insert_loop [5] [] [dis_f]).1 = false :=
  (insert_lookup_before_flag_check [5] [] [dis_f]).mpr
    ⟨dis_f, by decide, rfl⟩

/-- C3 counterexample: with group `[fA, fB]` (ids 1, 2) and a shared slot
holding only id 1, `copy_from_shared_context` fails naming id 2 — but `fA`'s
shared reference has already been replaced by the slot's value 99, so the
failed call did perform a partial import. -/
theorem copy_from_partial_import_counterexample :
    (copy_from_shared_context [(1, 99)] [fA, fB]).1 = Status.aborted 2 ∧
    ((copy_from_shared_context [(1, 99)] [fA, fB]).2[0]?).map IRuntimeFilter.shared_ref =
      some 99 ∧
    fA.shared_ref = 0 := by decide

/-- C3 (amended): when some handle's filter id is absent from the shared slot,
`copy_from_shared_context` returns the lookup error naming the first missing
id; the handles before that one have already taken their shared references
(partial import), and the handles from the failing one on are unchanged. -/
theorem copy_from_first_missing (ctx : List (Nat × Nat)) :
    ∀ (fs : List IRuntimeFilter) (j : Nat) (fj : IRuntimeFilter),
      fs[j]? = some fj → ctx.lookup fj.filter_id = none →
      (∀ i fi, i < j → fs[i]? = some fi → (ctx.lookup fi.filter_id).isSome = true) →
      (copy_from_shared_context ctx fs).1 = Status.aborted fj.filter_id ∧
      (∀ i, j ≤ i → (copy_from_shared_context ctx fs).2[i]? = fs[i]?) ∧
      (∀ i fi, i < j → fs[i]? = some fi →
        ∃ r, ctx.lookup fi.filter_id = some r ∧
          (copy_from_shared_context ctx fs).2[i]? = some { fi with shared_ref := r })
  | [], j, fj, hget, _, _ => by simp at hget
  | f :: fs, j, fj, hget, hnone, hpre => by
    cases j with
    | zero =>
      have hff : f = fj := by simpa using hget
      subst hff
      refine ⟨by simp [copy_from_shared_context, hnone], ?_, ?_⟩
      · intro i hi
        simp [copy_from_shared_context, hnone]
      · intro i fi hi hgi
        omega
    | succ n =>
      have hsome : (ctx.lookup f.filter_id).isSome = true :=
        hpre 0 f (Nat.succ_pos n) (by simp)
      obtain ⟨r, hr⟩ := Option.isSome_iff_exists.mp hsome
      have hget' : fs[n]? = some fj := by simpa using hget
      have hpre' : ∀ i fi, i < n → fs[i]? = some fi →
          (ctx.lookup fi.filter_id).isSome = true := by
        intro i fi hi hgi
        exact hpre (i + 1) fi (by omega) (by simpa using hgi)
      obtain ⟨ih1, ih2, ih3⟩ := copy_from_first_missing ctx fs n fj hget' hnone hpre'
      unfold copy_from_shared_context
      simp only [hr]
      refine ⟨ih1, ?_, ?_⟩
      · intro i hi
        cases i with
        | zero => omega
        | succ m => simpa using ih2 m (by omega)
      · intro i fi hi hgi
        cases i with
        | zero =>
          have hff : f = fi := by simpa using hgi
          subst hff
          exact ⟨r, hr, by simp⟩
        | succ m =>
          obtain ⟨r', hr', hout⟩ := ih3 m fi (by omega) (by simpa using hgi)
          exact ⟨r', hr', by simpa using hout⟩

/-- Witness for C3 (amended) at the concrete counterexample input: the call
aborts naming id 2, handle 0 is imported with reference 99, handle 1 is
unchanged. -/
theorem copy_from_first_missing_witness :
    (copy_from_shared_context [(1, 99)] [fA, fB]).1 = Status.aborted fB.filter_id ∧
    (copy_from_shared_context [(1, 99)] [fA, fB]).2[1]? = some fB ∧
    (copy_from_shared_context [(1, 99)] [fA, fB]).2[0]? =
      some { fA with shared_ref := 99 } := by
  obtain ⟨h1, h2, h3⟩ :=
    copy_from_first_missing [(1, 99)] [fA, fB] 1 fB rfl (by decide)
      (fun i fi hi hgi => by
        cases i with
        | zero =>
          have : fA = fi := by simpa using hgi
          subst this
          decide
        | succ m => omega)
  refine ⟨h1, h2 1 (by omega), ?_⟩
  obtain ⟨r, hr, hout⟩ := h3 0 fA (by omega) rfl
  have h99 : List.lookup fA.filter_id [(1, 99)] = some 99 := by decide
  rw [hr] at h99
  injection h99 with h
  subst h
  exact hout

/-- Every event of the registration loop is a dependency registration. -/
lemma dep_events_shape :
    ∀ (fs : List IRuntimeFilter) (b : Nat) (e : Event), e ∈ dep_events fs b →
      ∃ m, e = Event.set_finish_dependency m
  | [], _, _, he => by simp [dep_events] at he
  | f :: fs, b, e, he => by
    unfold dep_events at he
    by_cases hs : f.need_sync_filter_size = true
    · simp only [hs, if_true, List.mem_cons] at he
      rcases he with he | he
      · exact ⟨b, he⟩
      · exact dep_events_shape fs (b + 1) e he
    · simp only [hs, if_false] at he
      exact dep_events_shape fs (b + 1) e he

/-- Every event of the report loop is a size report. -/
lemma send_loop_shape :
    ∀ (fs : List IRuntimeFilter) (b : Nat) (e : Event), e ∈ (send_loop fs b).2 →
      ∃ k, e = Event.send_size k
  | [], _, _, he => by simp [send_loop] at he
  | f :: fs, b, e, he => by
    unfold send_loop at he
    by_cases hs : f.need_sync_filter_size = true
    · by_cases hk : f.send_ok = true
      · simp only [hs, hk, if_true, List.mem_cons] at he
        rcases he with he | he
        · exact ⟨b, he⟩
        · exact send_loop_shape fs (b + 1) e he
      · simp [hs, hk] at he
        exact ⟨b, he⟩
    · simp only [hs, if_false] at he
      exact send_loop_shape fs (b + 1) e he

/-- The registration loop registers the dependency on every handle that needs
size sync. -/
lemma dep_events_cover :
    ∀ (fs : List IRuntimeFilter) (b i : Nat) (f : IRuntimeFilter),
      fs[i]? = some f → f.need_sync_filter_size = true →
      Event.set_finish_dependency (b + i) ∈ dep_events fs b
  | [], _, i, f, hget, _ => by simp at hget
  | g :: fs, b, i, f, hget, hs => by
    unfold dep_events
    cases i with
    | zero =>
      have hgf : g = f := by simpa using hget
      subst hgf
      simp [hs]
    | succ n =>
      have hget' : fs[n]? = some f := by simpa using hget
      have ih := dep_events_cover fs (b + 1) n f hget' hs
      have harith : b + 1 + n = b + (n + 1) := by omega
      rw [harith] at ih
      by_cases hg : g.need_sync_filter_size = true
      · simp only [hg, if_true, List.mem_cons]
        exact Or.inr ih
      · simpa [hg] using ih

/-- C4: in the event trace of `send_filter_size`, every dependency
registration comes strictly before every size report, and the dependency is
registered on every handle that needs size sync. -/
theorem send_filter_size_registers_before_sending (fs : List IRuntimeFilter) :
    (∀ (i j k m : Nat), ((send_filter_size fs).2.2)[i]? = some (Event.send_size k) →
      ((send_filter_size fs).2.2)[j]? = some (Event.set_finish_dependency m) → j < i) ∧
    (∀ (i : Nat) (f : IRuntimeFilter), fs[i]? = some f → f.need_sync_filter_size = true →
      Event.set_finish_dependency i ∈ (send_filter_size fs).2.2) := by
  by_cases hne : fs.isEmpty = true
  · have hfs : fs = [] := List.isEmpty_iff.mp hne
    subst hfs
    constructor
    · intro i j k m hi hj
      simp [send_filter_size] at hi
    · intro i f hget
      simp at hget
  · have htr : (send_filter_size fs).2.2 =
        dep_events fs 0 ++
          (send_loop (fs.map fun f =>
            if f.need_sync_filter_size then { f with has_dependency := true } else f) 0).2 := by
      simp [send_filter_size, hne]
    constructor
    · intro i j k m hi hj
      rw [htr] at hi hj
      have hjlt : j < (dep_events fs 0).length := by
        by_contra hge
        push_neg at hge
        rw [List.getElem?_append_right hge] at hj
        obtain ⟨k', hk'⟩ := send_loop_shape _ _ _ (List.getElem?_mem hj)
        simp at hk'
      have hige : (dep_events fs 0).length ≤ i := by
        by_contra hlt
        push_neg at hlt
        rw [List.getElem?_append_left hlt] at hi
        obtain ⟨m', hm'⟩ := dep_events_shape fs 0 _ (List.getElem?_mem hi)
        simp at hm'
      omega
    · intro i f hget hs
      rw [htr, List.mem_append]
      left
      have := dep_events_cover fs 0 i f hget hs
      simpa using this

/-- Witness for C4 at a singleton group holding a size-sync handle: the
dependency registration for position 0 is in the trace. -/
theorem send_filter_size_registers_before_sending_witness :
    Event.set_finish_dependency 0 ∈ (send_filter_size [sync_f]).2.2 :=
  (send_filter_size_registers_before_sending [sync_f]).2 0 sync_f rfl rfl

/-- When `init_step` succeeds its filter result is: unchanged if ignored,
else exactly the `init_one_type` transition. -/
lemma init_step_ok_filter (max_in_num local_size i : Nat) (f : IRuntimeFilter)
    (hok : (init_step max_in_num local_size i f).1 = Status.ok) :
    (init_step max_in_num local_size i f).2.1 =
      if f.ignored then f else init_one_type max_in_num local_size f := by
  unfold init_step at hok ⊢
  unfold init_one_type
  split_ifs at hok ⊢ <;> simp_all

/-- The filter result of `init_step` keeps the ignored and disabled flags,
whether or not the step succeeds. -/
lemma init_step_flags (max_in_num local_size i : Nat) (f : IRuntimeFilter) :
    (init_step max_in_num local_size i f).2.1.ignored = f.ignored ∧
    (init_step max_in_num local_size i f).2.1.disabled = f.disabled := by
  unfold init_step
  split_ifs <;> simp

/-- When `init_step` succeeds on a non-ignored handle whose post-transition
real type is bloom, the `init_bloom_filter` call with the resolved size is in
its trace. -/
lemma init_step_ok_ev (max_in_num local_size i : Nat) (f : IRuntimeFilter)
    (hok : (init_step max_in_num local_size i f).1 = Status.ok)
    (hnig : f.ignored = false)
    (hbloom : (init_one_type max_in_num local_size f).real_type =
      RuntimeFilterType.BLOOM_FILTER) :
    Event.init_bloom i (get_real_size f local_size) ∈
      (init_step max_in_num local_size i f).2.2 := by
  unfold init_one_type at hbloom
  unfold init_step at hok ⊢
  split_ifs at hok hbloom ⊢ <;> simp_all [get_real_size]

/-- On a successful `init_filters` run, each handle's result is its
`init_step` filter result. -/
lemma init_filters_ok_elem (max_in_num local_size : Nat) :
    ∀ (fs : List IRuntimeFilter) (b i : Nat) (f : IRuntimeFilter),
      (init_filters max_in_num local_size fs b).1 = Status.ok →
      fs[i]? = some f →
      (init_filters max_in_num local_size fs b).2.1[i]? =
        some (if f.ignored then f else init_one_type max_in_num local_size f)
  | [], _, i, f, _, hget => by simp at hget
  | g :: fs, b, i, f, hok, hget => by
    unfold init_filters at hok ⊢
    cases hst : (init_step max_in_num local_size b g).1 with
    | ok =>
      simp only [hst] at hok ⊢
      cases i with
      | zero =>
        have hgf : g = f := by simpa using hget
        subst hgf
        simp [init_step_ok_filter max_in_num local_size b g hst]
      | succ n =>
        simp only [List.getElem?_cons_succ] at hget ⊢
        exact init_filters_ok_elem max_in_num local_size fs (b + 1) n f hok hget
    | aborted fid => simp [hst] at hok
    | error => simp [hst] at hok

/-- On a successful `init_filters` run, every non-ignored handle whose
post-transition real type is bloom got an `init_bloom_filter` call with the
resolved size. -/
lemma init_filters_ok_ev (max_in_num local_size : Nat) :
    ∀ (fs : List IRuntimeFilter) (b i : Nat) (f : IRuntimeFilter),
      (init_filters max_in_num local_size fs b).1 = Status.ok →
      fs[i]? = some f → f.ignored = false →
      (init_one_type max_in_num local_size f).real_type = RuntimeFilterType.BLOOM_FILTER →
      Event.init_bloom (b + i) (get_real_size f local_size) ∈
        (init_filters max_in_num local_size fs b).2.2
  | [], _, i, f, _, hget, _, _ => by simp at hget
  | g :: fs, b, i, f, hok, hget, hnig, hbloom => by
    unfold init_filters at hok ⊢
    cases hst : (init_step max_in_num local_size b g).1 with
    | ok =>
      simp only [hst] at hok ⊢
      rw [List.mem_append]
      cases i with
      | zero =>
        have hgf : g = f := by simpa using hget
        subst hgf
        exact Or.inl (by simpa using init_step_ok_ev max_in_num local_size b g hst hnig hbloom)
      | succ n =>
        simp only [List.getElem?_cons_succ] at hget
        have ih := init_filters_ok_ev max_in_num local_size fs (b + 1) n f hok hget hnig hbloom
        have harith : b + 1 + n = b + (n + 1) := by omega
        rw [harith] at ih
        exact Or.inr ih
    | aborted fid => simp [hst] at hok
    | error => simp [hst] at hok

/-- C5: on a successful `init_filters` run, every non-ignored hybrid handle
whose resolved size exceeds the configured IN threshold has its real type
changed to bloom; a hybrid at or under the threshold is returned unchanged;
and every non-ignored handle whose resulting real type is bloom received an
`init_bloom_filter` call with the resolved size. -/
theorem init_filters_hybrid_transition (max_in_num local_size : Nat)
    (fs : List IRuntimeFilter) (i : Nat) (f : IRuntimeFilter)
    (hok : (init_filters max_in_num local_size fs 0).1 = Status.ok)
    (hget : fs[i]? = some f) (hnig : f.ignored = false) :
    ((f.ftype = RuntimeFilterType.IN_OR_BLOOM_FILTER ∧
        get_real_size f local_size > max_in_num) →
      (init_filters max_in_num local_size fs 0).2.1[i]? =
        some { f with real_type := RuntimeFilterType.BLOOM_FILTER }) ∧
    ((f.ftype = RuntimeFilterType.IN_OR_BLOOM_FILTER ∧
        ¬ get_real_size f local_size > max_in_num) →
      (init_filters max_in_num local_size fs 0).2.1[i]? = some f) ∧
    (∀ g, (init_filters max_in_num local_size fs 0).2.1[i]? = some g →
      g.real_type = RuntimeFilterType.BLOOM_FILTER →
      Event.init_bloom i (get_real_size f local_size) ∈
        (init_filters max_in_num local_size fs 0).2.2) := by
  have helem := init_filters_ok_elem max_in_num local_size fs 0 i f hok hget
  rw [if_neg (by simp [hnig])] at helem
  refine ⟨?_, ?_, ?_⟩
  · intro hcond
    rw [helem, init_one_type, if_pos hcond]
  · intro hcond
    rw [helem, init_one_type, if_neg (by tauto)]
  · intro g hg hbl
    have hgi : g = init_one_type max_in_num local_size f := by
      rw [helem] at hg
      exact (Option.some.injEq _ _).mp hg.symm
    have := init_filters_ok_ev max_in_num local_size fs 0 i f hok hget hnig (by
      rw [← hgi]; exact hbl)
    simpa using this

/-- Witness for C5: a hybrid handle with local cardinality 5 over threshold 1
becomes a bloom filter and is allocated with size 5. -/
theorem init_filters_hybrid_transition_witness :
    (init_filters 1 5 [hyb_in] 0).2.1[0]? =
      some { hyb_in with real_type := RuntimeFilterType.BLOOM_FILTER } ∧
    Event.init_bloom 0 (get_real_size hyb_in 5) ∈ (init_filters 1 5 [hyb_in] 0).2.2 := by
  have thm := init_filters_hybrid_transition 1 5 [hyb_in] 0 hyb_in (by decide) rfl rfl
  have h1 := thm.1 ⟨rfl, by decide⟩
  refine ⟨h1, thm.2.2 { hyb_in with real_type := RuntimeFilterType.BLOOM_FILTER } h1 rfl⟩

/-- Pass 1 of the pruning only grows the `has_in_filter` set. -/
lemma dmf_pass1_seen_mono :
    ∀ (fs : List IRuntimeFilter) (seen : List Nat), seen ⊆ (dmf_pass1 fs seen).2
  | [], seen => by simp [dmf_pass1]
  | f :: fs, seen => by
    unfold dmf_pass1
    split_ifs with b1 b2 b3 b4
    · exact dmf_pass1_seen_mono fs seen
    · exact dmf_pass1_seen_mono fs seen
    · exact dmf_pass1_seen_mono fs seen
    · exact dmf_pass1_seen_mono fs seen
    · exact List.Subset.trans (List.subset_cons_self f.expr_order seen)
        (dmf_pass1_seen_mono fs (f.expr_order :: seen))

/-- Pass 1 of the pruning either keeps a handle unchanged or disables it. -/
lemma dmf_pass1_elem :
    ∀ (fs : List IRuntimeFilter) (seen : List Nat) (i : Nat) (f : IRuntimeFilter),
      fs[i]? = some f →
      (dmf_pass1 fs seen).1[i]? = some f ∨
        (dmf_pass1 fs seen).1[i]? = some (set_disabled f)
  | [], _, i, f, hget => by simp at hget
  | g :: fs, seen, i, f, hget => by
    unfold dmf_pass1
    split_ifs with b1 b2 b3 b4
    · cases i with
      | zero =>
        have hgf : g = f := by simpa using hget
        exact Or.inl (by simp [hgf])
      | succ n =>
        simp only [List.getElem?_cons_succ] at hget ⊢
        exact dmf_pass1_elem fs seen n f hget
    · cases i with
      | zero =>
        have hgf : g = f := by simpa using hget
        exact Or.inl (by simp [hgf])
      | succ n =>
        simp only [List.getElem?_cons_succ] at hget ⊢
        exact dmf_pass1_elem fs seen n f hget
    · cases i with
      | zero =>
        have hgf : g = f := by simpa using hget
        exact Or.inl (by simp [hgf])
      | succ n =>
        simp only [List.getElem?_cons_succ] at hget ⊢
        exact dmf_pass1_elem fs seen n f hget
    · cases i with
      | zero =>
        have hgf : g = f := by simpa using hget
        exact Or.inr (by simp [hgf])
      | succ n =>
        simp only [List.getElem?_cons_succ] at hget ⊢
        exact dmf_pass1_elem fs seen n f hget
    · cases i with
      | zero =>
        have hgf : g = f := by simpa using hget
        exact Or.inl (by simp [hgf])
      | succ n =>
        simp only [List.getElem?_cons_succ] at hget ⊢
        exact dmf_pass1_elem fs (g.expr_order :: seen) n f hget

/-- An active hybrid handle that does not need size sync is skipped unchanged
by pass 1 of the pruning, whatever the seen-set. -/
lemma dmf_pass1_skip :
    ∀ (fs : List IRuntimeFilter) (seen : List Nat) (i : Nat) (f : IRuntimeFilter),
      fs[i]? = some f → (f.ignored || f.disabled) = false →
      (!f.need_sync_filter_size && f.ftype == RuntimeFilterType.IN_OR_BLOOM_FILTER) = true →
      (dmf_pass1 fs seen).1[i]? = some f
  | [], _, i, f, hget, _, _ => by simp at hget
  | g :: fs, seen, i, f, hget, hact, hskip => by
    unfold dmf_pass1
    split_ifs with b1 b2 b3 b4
    · cases i with
      | zero =>
        have hgf : g = f := by simpa using hget
        simp [hgf]
      | succ n =>
        simp only [List.getElem?_cons_succ] at hget ⊢
        exact dmf_pass1_skip fs seen n f hget hact hskip
    · cases i with
      | zero =>
        have hgf : g = f := by simpa using hget
        simp [hgf]
      | succ n =>
        simp only [List.getElem?_cons_succ] at hget ⊢
        exact dmf_pass1_skip fs seen n f hget hact hskip
    · cases i with
      | zero =>
        have hgf : g = f := by simpa using hget
        simp [hgf]
      | succ n =>
        simp only [List.getElem?_cons_succ] at hget ⊢
        exact dmf_pass1_skip fs seen n f hget hact hskip
    · cases i with
      | zero =>
        have hgf : g = f := by simpa using hget
        subst hgf
        exact absurd hskip b3
      | succ n =>
        simp only [List.getElem?_cons_succ] at hget ⊢
        exact dmf_pass1_skip fs seen n f hget hact hskip
    · cases i with
      | zero =>
        have hgf : g = f := by simpa using hget
        simp [hgf]
      | succ n =>
        simp only [List.getElem?_cons_succ] at hget ⊢
        exact dmf_pass1_skip fs (g.expr_order :: seen) n f hget hact hskip

/-- An active IN-real-type handle that pass 1 counts (needs size sync or not
declared hybrid) ends with its `expr_order` in the `has_in_filter` set. -/
lemma dmf_pass1_countable :
    ∀ (fs : List IRuntimeFilter) (seen : List Nat) (i : Nat) (f : IRuntimeFilter),
      fs[i]? = some f → (f.ignored || f.disabled) = false →
      f.real_type = RuntimeFilterType.IN_FILTER →
      (!f.need_sync_filter_size && f.ftype == RuntimeFilterType.IN_OR_BLOOM_FILTER) = false →
      f.expr_order ∈ (dmf_pass1 fs seen).2
  | [], _, i, f, hget, _, _, _ => by simp at hget
  | g :: fs, seen, i, f, hget, hact, hin, hcnt => by
    unfold dmf_pass1
    split_ifs with b1 b2 b3 b4
    · cases i with
      | zero =>
        have hgf : g = f := by simpa using hget
        subst hgf
        simp [hact] at b1
      | succ n =>
        simp only [List.getElem?_cons_succ] at hget
        exact dmf_pass1_countable fs seen n f hget hact hin hcnt
    · cases i with
      | zero =>
        have hgf : g = f := by simpa using hget
        subst hgf
        exact absurd hin b2
      | succ n =>
        simp only [List.getElem?_cons_succ] at hget
        exact dmf_pass1_countable fs seen n f hget hact hin hcnt
    · cases i with
      | zero =>
        have hgf : g = f := by simpa using hget
        subst hgf
        simp [hcnt] at b3
      | succ n =>
        simp only [List.getElem?_cons_succ] at hget
        exact dmf_pass1_countable fs seen n f hget hact hin hcnt
    · cases i with
      | zero =>
        have hgf : g = f := by simpa using hget
        subst hgf
        exact dmf_pass1_seen_mono fs seen b4
      | succ n =>
        simp only [List.getElem?_cons_succ] at hget
        exact dmf_pass1_countable fs seen n f hget hact hin hcnt
    · cases i with
      | zero =>
        have hgf : g = f := by simpa using hget
        subst hgf
        exact dmf_pass1_seen_mono fs (g.expr_order :: seen)
          (List.mem_cons_self g.expr_order seen)
      | succ n =>
        simp only [List.getElem?_cons_succ] at hget
        exact dmf_pass1_countable fs (g.expr_order :: seen) n f hget hact hin hcnt

/-- C6 counterexample: `hyb_in` is an active membership-set (real type IN)
filter that does not require size sync, yet pass 1 neither inserts its
`expr_order` into the seen-set nor disables it — it is skipped, contradicting
the claim that only filters awaiting size negotiation are skipped. -/
theorem dmf_pass1_count_counterexample :
    hyb_in.ignored = false ∧ hyb_in.disabled = false ∧
    hyb_in.real_type = RuntimeFilterType.IN_FILTER ∧
    hyb_in.need_sync_filter_size = false ∧
    (dmf_pass1 [hyb_in] []).2 = [] ∧
    (dmf_pass1 [hyb_in] []).1 = [hyb_in] := by decide

/-- C6 (amended): pass 1 counts every active IN-real-type handle except the
hybrid (`IN_OR_BLOOM_FILTER`) handles that do not need size sync: a counted
handle's `expr_order` ends in the seen-set and the handle is either kept or
disabled, while an uncounted hybrid is skipped unchanged. -/
theorem dmf_pass1_countability (fs : List IRuntimeFilter) (i : Nat) (f : IRuntimeFilter)
    (hget : fs[i]? = some f) (hnig : f.ignored = false) (hndis : f.disabled = false)
    (hin : f.real_type = RuntimeFilterType.IN_FILTER) :
    ((f.need_sync_filter_size = false ∧ f.ftype = RuntimeFilterType.IN_OR_BLOOM_FILTER) →
      (dmf_pass1 fs []).1[i]? = some f) ∧
    ((f.need_sync_filter_size = true ∨ f.ftype ≠ RuntimeFilterType.IN_OR_BLOOM_FILTER) →
      f.expr_order ∈ (dmf_pass1 fs []).2 ∧
      ((dmf_pass1 fs []).1[i]? = some f ∨
        (dmf_pass1 fs []).1[i]? = some (set_disabled f))) := by
  constructor
  · intro hcase
    exact dmf_pass1_skip fs [] i f hget (by simp [hnig, hndis])
      (by simp [hcase.1, hcase.2])
  · intro hcase
    refine ⟨?_, dmf_pass1_elem fs [] i f hget⟩
    refine dmf_pass1_countable fs [] i f hget (by simp [hnig, hndis]) hin ?_
    rcases hcase with h | h <;> simp [h]

/-- Witness for C6 (amended): the plain IN filter `f0` is counted — its
`expr_order` 0 is in the seen-set after pass 1. -/
theorem dmf_pass1_countability_witness :
    f0.expr_order ∈ (dmf_pass1 [f0] []).2 :=
  ((dmf_pass1_countability [f0] 0 f0 rfl rfl rfl rfl).2 (Or.inr (by decide))).1

/-- An inactive handle is not an active countable IN filter. -/
lemma acin_false_of_inactive (e : Nat) (f : IRuntimeFilter)
    (h : (f.ignored || f.disabled) = true) : active_countable_in e f = false := by
  rcases Bool.or_eq_true_iff.mp h with h | h <;> simp [active_countable_in, active_in, h]

/-- A handle with non-IN real type is not an active countable IN filter. -/
lemma acin_false_of_not_in (e : Nat) (f : IRuntimeFilter)
    (h : f.real_type ≠ RuntimeFilterType.IN_FILTER) : active_countable_in e f = false := by
  simp [active_countable_in, active_in, h]

/-- A hybrid handle that does not need size sync is not countable. -/
lemma acin_false_of_skip (e : Nat) (f : IRuntimeFilter)
    (h : (!f.need_sync_filter_size && f.ftype == RuntimeFilterType.IN_OR_BLOOM_FILTER)
      = true) : active_countable_in e f = false := by
  obtain ⟨h1, h2⟩ := Bool.and_eq_true_iff.mp h
  have hns : f.need_sync_filter_size = false := by simpa using h1
  simp [active_countable_in, hns, h2]

/-- On an active, IN-real-type, countable handle the predicate reduces to the
`expr_order` test. -/
lemma acin_of_counted (e : Nat) (f : IRuntimeFilter)
    (h1 : (f.ignored || f.disabled) = false)
    (h2 : f.real_type = RuntimeFilterType.IN_FILTER)
    (h3 : (!f.need_sync_filter_size && f.ftype == RuntimeFilterType.IN_OR_BLOOM_FILTER)
      = false) : active_countable_in e f = (f.expr_order == e) := by
  obtain ⟨hig, hdis⟩ := Bool.or_eq_false_iff.mp h1
  rcases Bool.and_eq_false_iff.mp h3 with h | h
  · have hns : f.need_sync_filter_size = true := by simpa using h
    simp [active_countable_in, active_in, hig, hdis, h2, hns]
  · simp [active_countable_in, active_in, hig, hdis, h2, h]

/-- Unpacking of a true `active_countable_in`. -/
lemma acin_spec (e : Nat) (f : IRuntimeFilter) (h : active_countable_in e f = true) :
    f.ignored = false ∧ f.disabled = false ∧
    f.real_type = RuntimeFilterType.IN_FILTER ∧ f.expr_order = e := by
  simp [active_countable_in, active_in] at h
  exact ⟨h.1.1.1.1, h.1.1.1.2, h.1.1.2, h.1.2⟩

/-- Unfolding of pass 1 on an inactive head. -/
lemma dmf_pass1_cons_inactive (f : IRuntimeFilter) (fs : List IRuntimeFilter)
    (seen : List Nat) (h : (f.ignored || f.disabled) = true) :
    (dmf_pass1 (f :: fs) seen).1 = f :: (dmf_pass1 fs seen).1 := by
  simp only [dmf_pass1]
  rw [if_pos h]

/-- Unfolding of pass 1 on an active non-IN head. -/
lemma dmf_pass1_cons_notin (f : IRuntimeFilter) (fs : List IRuntimeFilter)
    (seen : List Nat) (h1 : (f.ignored || f.disabled) = false)
    (h2 : f.real_type ≠ RuntimeFilterType.IN_FILTER) :
    (dmf_pass1 (f :: fs) seen).1 = f :: (dmf_pass1 fs seen).1 := by
  simp only [dmf_pass1]
  rw [if_neg (by simp [h1]), if_pos h2]

/-- Unfolding of pass 1 on an active IN head that is an uncounted hybrid. -/
lemma dmf_pass1_cons_skip (f : IRuntimeFilter) (fs : List IRuntimeFilter)
    (seen : List Nat) (h1 : (f.ignored || f.disabled) = false)
    (h2 : f.real_type = RuntimeFilterType.IN_FILTER)
    (h3 : (!f.need_sync_filter_size && f.ftype == RuntimeFilterType.IN_OR_BLOOM_FILTER)
      = true) :
    (dmf_pass1 (f :: fs) seen).1 = f :: (dmf_pass1 fs seen).1 := by
  simp only [dmf_pass1]
  rw [if_neg (by simp [h1]), if_neg (by simp [h2]), if_pos h3]

/-- Unfolding of pass 1 on a counted IN head whose `expr_order` was already
seen: the head is disabled. -/
lemma dmf_pass1_cons_dup (f : IRuntimeFilter) (fs : List IRuntimeFilter)
    (seen : List Nat) (h1 : (f.ignored || f.disabled) = false)
    (h2 : f.real_type = RuntimeFilterType.IN_FILTER)
    (h3 : (!f.need_sync_filter_size && f.ftype == RuntimeFilterType.IN_OR_BLOOM_FILTER)
      = false)
    (h4 : f.expr_order ∈ seen) :
    (dmf_pass1 (f :: fs) seen).1 = set_disabled f :: (dmf_pass1 fs seen).1 := by
  simp only [dmf_pass1]
  rw [if_neg (by simp [h1]), if_neg (by simp [h2]), if_neg (by simp [h3]), if_pos h4]

/-- Unfolding of pass 1 on a counted IN head with a fresh `expr_order`: the
head is kept and its `expr_order` recorded. -/
lemma dmf_pass1_cons_fresh (f : IRuntimeFilter) (fs : List IRuntimeFilter)
    (seen : List Nat) (h1 : (f.ignored || f.disabled) = false)
    (h2 : f.real_type = RuntimeFilterType.IN_FILTER)
    (h3 : (!f.need_sync_filter_size && f.ftype == RuntimeFilterType.IN_OR_BLOOM_FILTER)
      = false)
    (h4 : f.expr_order ∉ seen) :
    (dmf_pass1 (f :: fs) seen).1 = f :: (dmf_pass1 fs (f.expr_order :: seen)).1 := by
  simp only [dmf_pass1]
  rw [if_neg (by simp [h1]), if_neg (by simp [h2]), if_neg (by simp [h3]), if_neg h4]

/-- The active countable IN filters surviving pass 1 are exactly the first
input one when the target `expr_order` is fresh, and none when it is already
in the seen-set. -/
lemma dmf_pass1_filter (e : Nat) :
    ∀ (fs : List IRuntimeFilter) (seen : List Nat),
      (dmf_pass1 fs seen).1.filter (active_countable_in e) =
        if e ∈ seen then [] else (fs.filter (active_countable_in e)).take 1
  | [], seen => by
    simp only [dmf_pass1, List.filter_nil]
    split_ifs <;> simp
  | f :: fs, seen => by
    by_cases b1 : (f.ignored || f.disabled) = true
    · have hp : active_countable_in e f = false := acin_false_of_inactive e f b1
      rw [dmf_pass1_cons_inactive f fs seen b1]
      simp only [List.filter_cons, hp, Bool.false_eq_true, if_false]
      exact dmf_pass1_filter e fs seen
    · have b1' : (f.ignored || f.disabled) = false := by simpa using b1
      by_cases b2 : f.real_type = RuntimeFilterType.IN_FILTER
      · by_cases b3 : (!f.need_sync_filter_size &&
            f.ftype == RuntimeFilterType.IN_OR_BLOOM_FILTER) = true
        · have hp : active_countable_in e f = false := acin_false_of_skip e f b3
          rw [dmf_pass1_cons_skip f fs seen b1' b2 b3]
          simp only [List.filter_cons, hp, Bool.false_eq_true, if_false]
          exact dmf_pass1_filter e fs seen
        · have b3' : (!f.need_sync_filter_size &&
              f.ftype == RuntimeFilterType.IN_OR_BLOOM_FILTER) = false := by simpa using b3
          have hpf : active_countable_in e f = (f.expr_order == e) :=
            acin_of_counted e f b1' b2 b3'
          by_cases b4 : f.expr_order ∈ seen
          · rw [dmf_pass1_cons_dup f fs seen b1' b2 b3' b4]
            have hpd : active_countable_in e (set_disabled f) = false :=
              acin_false_of_inactive e _ (by simp [set_disabled])
            simp only [List.filter_cons, hpd, Bool.false_eq_true, if_false]
            rw [dmf_pass1_filter e fs seen]
            by_cases he : f.expr_order = e
            · have heseen : e ∈ seen := he ▸ b4
              simp [heseen]
            · have hpf' : active_countable_in e f = false := by
                rw [hpf]
                simpa using he
              simp [hpf']
          · rw [dmf_pass1_cons_fresh f fs seen b1' b2 b3' b4]
            have ih := dmf_pass1_filter e fs (f.expr_order :: seen)
            by_cases he : f.expr_order = e
            · have hpf' : active_countable_in e f = true := by
                rw [hpf]
                simpa using he
              have hin : e ∈ f.expr_order :: seen := by simp [he]
              have hout : e ∉ seen := fun hmem => b4 (he ▸ hmem)
              rw [if_pos hin] at ih
              rw [if_neg hout]
              simp [List.filter_cons, hpf', ih]
            · have hpf' : active_countable_in e f = false := by
                rw [hpf]
                simpa using he
              simp only [List.filter_cons, hpf', Bool.false_eq_true, if_false]
              rw [ih]
              have hiff : (e ∈ f.expr_order :: seen) ↔ e ∈ seen := by
                constructor
                · intro hmem
                  rcases List.mem_cons.mp hmem with hh | hh
                  · exact absurd hh.symm he
                  · exact hh
                · intro hmem
                  exact List.mem_cons_of_mem _ hmem
              by_cases hs : e ∈ seen
              · rw [if_pos (hiff.mpr hs), if_pos hs]
              · rw [if_neg (fun hmem => hs (hiff.mp hmem)), if_neg hs]
      · have hp : active_countable_in e f = false := acin_false_of_not_in e f b2
        rw [dmf_pass1_cons_notin f fs seen b1' b2]
        simp only [List.filter_cons, hp, Bool.false_eq_true, if_false]
        exact dmf_pass1_filter e fs seen

/-- Pass 2 of the pruning does not touch the set of active countable IN
filters: it keeps them unchanged and only disables filters that already fail
the predicate. -/
lemma dmf_pass2_filter (e : Nat) (seen : List Nat) :
    ∀ fs : List IRuntimeFilter,
      (dmf_pass2 seen fs).filter (active_countable_in e) =
        fs.filter (active_countable_in e)
  | [] => by simp [dmf_pass2]
  | f :: fs => by
    have ih := dmf_pass2_filter e seen fs
    simp only [dmf_pass2, List.map_cons, List.filter_cons] at ih ⊢
    by_cases hp : active_countable_in e f = true
    · obtain ⟨hig, hdis, hin, _⟩ := acin_spec e f hp
      have hstep : dmf_pass2_step seen f = f := by
        unfold dmf_pass2_step
        rw [if_neg (by simp [hig, hdis]), if_pos (Or.inl hin)]
      rw [hstep]
      simp only [hp, if_true]
      exact congrArg (f :: ·) ih
    · have hps : active_countable_in e (dmf_pass2_step seen f) = false := by
        unfold dmf_pass2_step
        split_ifs with c1 c2
        · simpa using hp
        · simpa using hp
        · exact acin_false_of_inactive e _ (by simp [set_disabled])
      simp only [hps, Bool.false_eq_true, if_false, (by simpa using hp :
        active_countable_in e f = false)]
      exact ih

/-- The step of pass 2 either keeps a handle or disables it. -/
lemma dmf_pass2_step_cases (seen : List Nat) (f : IRuntimeFilter) :
    dmf_pass2_step seen f = f ∨ dmf_pass2_step seen f = set_disabled f := by
  unfold dmf_pass2_step
  split_ifs <;> simp

/-- Full pruning either keeps a handle unchanged or disables it. -/
lemma dmf_elem (fs : List IRuntimeFilter) (i : Nat) (f : IRuntimeFilter)
    (hget : fs[i]? = some f) :
    (disable_meaningless_filters fs)[i]? = some f ∨
      (disable_meaningless_filters fs)[i]? = some (set_disabled f) := by
  unfold disable_meaningless_filters dmf_pass2
  rw [List.getElem?_map]
  rcases dmf_pass1_elem fs [] i f hget with h | h
  · rw [h]
    rcases dmf_pass2_step_cases (dmf_pass1 fs []).2 f with hs | hs
    · exact Or.inl (by simp [hs])
    · exact Or.inr (by simp [hs])
  · rw [h]
    rcases dmf_pass2_step_cases (dmf_pass1 fs []).2 (set_disabled f) with hs | hs
    · exact Or.inr (by simp [hs])
    · have : set_disabled (set_disabled f) = set_disabled f := rfl
      exact Or.inr (by simp [hs, this])

/-- C1 counterexample: `f0` (plain IN filter) and `hyb_in` (hybrid with real
type IN, no size sync) are both active on `expr_order` 0; after full pruning
both are still active IN filters on expression 0 — two, not at most one, and
not k−1 = 1 disabled. -/
theorem dmf_at_most_one_counterexample :
    f0.expr_order = 0 ∧ hyb_in.expr_order = 0 ∧
    active_in 0 f0 = true ∧ active_in 0 hyb_in = true ∧
    ((disable_meaningless_filters [f0, hyb_in]).filter (active_in 0)).length = 2 ∧
    ¬ ((disable_meaningless_filters [f0, hyb_in]).filter (active_in 0)).length ≤ 1 := by
  decide

/-- C1 (amended): restricted to countable membership-set filters (real type
IN, and needing size sync or not declared hybrid), pruning keeps exactly the
first one per `expr_order` in group order: the surviving sublist is the first
element of the input sublist, hence at most one survives, exactly one when the
group had any, and every handle is either kept unchanged or disabled. -/
theorem dmf_at_most_one_countable (fs : List IRuntimeFilter) (e : Nat) :
    (disable_meaningless_filters fs).filter (active_countable_in e) =
      (fs.filter (active_countable_in e)).take 1 ∧
    ((disable_meaningless_filters fs).filter (active_countable_in e)).length ≤ 1 ∧
    (fs.filter (active_countable_in e) ≠ [] →
      ((disable_meaningless_filters fs).filter (active_countable_in e)).length = 1) ∧
    (∀ (i : Nat) (f : IRuntimeFilter), fs[i]? = some f →
      (disable_meaningless_filters fs)[i]? = some f ∨
        (disable_meaningless_filters fs)[i]? = some (set_disabled f)) := by
  have hmain : (disable_meaningless_filters fs).filter (active_countable_in e) =
      (fs.filter (active_countable_in e)).take 1 := by
    unfold disable_meaningless_filters
    rw [dmf_pass2_filter e (dmf_pass1 fs []).2 (dmf_pass1 fs []).1,
      dmf_pass1_filter e fs []]
    simp
  refine ⟨hmain, ?_, ?_, fun i f hget => dmf_elem fs i f hget⟩
  · rw [hmain, List.length_take]
    omega
  · intro hne
    rw [hmain, List.length_take]
    have : 0 < (fs.filter (active_countable_in e)).length := List.length_pos.mpr hne
    omega

/-- Witness for C1 (amended): in the group `[f0, hyb_in]` exactly one
countable IN filter on expression 0 survives pruning. -/
theorem dmf_at_most_one_countable_witness :
    ((disable_meaningless_filters [f0, hyb_in]).filter (active_countable_in 0)).length = 1 :=
  (dmf_at_most_one_countable [f0, hyb_in] 0).2.2.1 (by decide)

/-- Flag ordering is reflexive. -/
lemma flag_le_refl (f : IRuntimeFilter) : flag_le f f := ⟨fun h => h, fun h => h⟩

/-- Flag ordering is transitive. -/
lemma flag_le_trans {f g h : IRuntimeFilter} (h1 : flag_le f g) (h2 : flag_le g h) :
    flag_le f h := ⟨fun hx => h2.1 (h1.1 hx), fun hx => h2.2 (h1.2 hx)⟩

/-- Equal flags give the flag ordering. -/
lemma flag_le_of_eq {f g : IRuntimeFilter} (hig : g.ignored = f.ignored)
    (hdis : g.disabled = f.disabled) : flag_le f g :=
  ⟨fun h => hig.trans h, fun h => hdis.trans h⟩

/-- Size negotiation only sets the dependency field: flags are untouched. -/
lemma send_filter_size_flags (fs : List IRuntimeFilter) (i : Nat) (f : IRuntimeFilter)
    (hget : fs[i]? = some f) :
    ∃ g, (send_filter_size fs).2.1[i]? = some g ∧
      g.ignored = f.ignored ∧ g.disabled = f.disabled := by
  unfold send_filter_size
  by_cases hne : fs.isEmpty = true
  · simp only [hne, if_true]
    exact ⟨f, hget, rfl, rfl⟩
  · simp only [hne, Bool.false_eq_true, if_false, List.getElem?_map, hget]
    by_cases hs : f.need_sync_filter_size = true
    · exact ⟨{ f with has_dependency := true }, by simp [hs], rfl, rfl⟩
    · exact ⟨f, by simp [hs], rfl, rfl⟩

/-- Materialization never touches the flags, on any status. -/
lemma init_filters_flags (max_in_num local_size : Nat) :
    ∀ (fs : List IRuntimeFilter) (b i : Nat) (f : IRuntimeFilter),
      fs[i]? = some f →
      ∃ g, (init_filters max_in_num local_size fs b).2.1[i]? = some g ∧
        g.ignored = f.ignored ∧ g.disabled = f.disabled
  | [], _, i, f, hget => by simp at hget
  | g0 :: fs, b, i, f, hget => by
    unfold init_filters
    cases hst : (init_step max_in_num local_size b g0).1 with
    | ok =>
      simp only [hst]
      cases i with
      | zero =>
        have hgf : g0 = f := by simpa using hget
        subst hgf
        exact ⟨_, by simp, (init_step_flags max_in_num local_size b g0).1,
          (init_step_flags max_in_num local_size b g0).2⟩
      | succ n =>
        simp only [List.getElem?_cons_succ] at hget ⊢
        exact init_filters_flags max_in_num local_size fs (b + 1) n f hget
    | aborted fid =>
      simp only [hst]
      cases i with
      | zero =>
        have hgf : g0 = f := by simpa using hget
        subst hgf
        exact ⟨_, by simp, (init_step_flags max_in_num local_size b g0).1,
          (init_step_flags max_in_num local_size b g0).2⟩
      | succ n =>
        simp only [List.getElem?_cons_succ] at hget ⊢
        exact ⟨f, hget, rfl, rfl⟩
    | error =>
      simp only [hst]
      cases i with
      | zero =>
        have hgf : g0 = f := by simpa using hget
        subst hgf
        exact ⟨_, by simp, (init_step_flags max_in_num local_size b g0).1,
          (init_step_flags max_in_num local_size b g0).2⟩
      | succ n =>
        simp only [List.getElem?_cons_succ] at hget ⊢
        exact ⟨f, hget, rfl, rfl⟩

/-- Ingestion never touches the flags, column lookup failure included. -/
lemma insert_loop_flags (build_expr_context block : List Nat) :
    ∀ (fs : List IRuntimeFilter) (i : Nat) (f : IRuntimeFilter),
      fs[i]? = some f →
      ∃ g, (insert_loop build_expr_context block fs).2[i]? = some g ∧
        g.ignored = f.ignored ∧ g.disabled = f.disabled
  | [], i, f, hget => by simp at hget
  | g0 :: fs, i, f, hget => by
    unfold insert_loop
    cases hcol : lookup_col build_expr_context block g0 with
    | none => exact ⟨f, by simpa using hget, rfl, rfl⟩
    | some col =>
      cases i with
      | zero =>
        have hgf : g0 = f := by simpa using hget
        subst hgf
        by_cases hflag : (g0.ignored || g0.disabled) = true
        · exact ⟨g0, by simp [hflag], rfl, rfl⟩
        · exact ⟨{ g0 with inserted := g0.inserted ++ [col] }, by simp [hflag], rfl, rfl⟩
      | succ n =>
        simp only [List.getElem?_cons_succ] at hget ⊢
        exact insert_loop_flags build_expr_context block fs n f hget

/-- State import never touches the flags, lookup failure included. -/
lemma copy_from_flags (ctx : List (Nat × Nat)) :
    ∀ (fs : List IRuntimeFilter) (i : Nat) (f : IRuntimeFilter),
      fs[i]? = some f →
      ∃ g, (copy_from_shared_context ctx fs).2[i]? = some g ∧
        g.ignored = f.ignored ∧ g.disabled = f.disabled
  | [], i, f, hget => by simp at hget
  | g0 :: fs, i, f, hget => by
    unfold copy_from_shared_context
    cases hl : ctx.lookup g0.filter_id with
    | none => exact ⟨f, by simpa using hget, rfl, rfl⟩
    | some r =>
      cases i with
      | zero =>
        have hgf : g0 = f := by simpa using hget
        subst hgf
        exact ⟨{ g0 with shared_ref := r }, by simp, rfl, rfl⟩
      | succ n =>
        simp only [List.getElem?_cons_succ] at hget ⊢
        exact copy_from_flags ctx fs n f hget

/-- Any single coordinator operation keeps every handle at the same position
and can only raise its flags. -/
lemma applyOp_flag (op : Op) (fs : List IRuntimeFilter) (i : Nat) (f : IRuntimeFilter)
    (hget : fs[i]? = some f) :
    ∃ g, (applyOp op fs)[i]? = some g ∧ flag_le f g := by
  cases op with
  | negotiate =>
    obtain ⟨g, hg, h1, h2⟩ := send_filter_size_flags fs i f hget
    exact ⟨g, hg, flag_le_of_eq h1 h2⟩
  | materialize max_in_num local_size =>
    obtain ⟨g, hg, h1, h2⟩ := init_filters_flags max_in_num local_size fs 0 i f hget
    exact ⟨g, hg, flag_le_of_eq h1 h2⟩
  | prune =>
    rcases dmf_elem fs i f hget with h | h
    · exact ⟨f, h, flag_le_refl f⟩
    · exact ⟨set_disabled f, h, ⟨fun hx => hx, fun _ => rfl⟩⟩
  | ignore_all =>
    refine ⟨set_ignored f, ?_, ⟨fun _ => rfl, fun hx => hx⟩⟩
    simp only [applyOp, ignore_all_filters, List.getElem?_map, hget]
    rfl
  | disable_all =>
    refine ⟨set_disabled f, ?_, ⟨fun hx => hx, fun _ => rfl⟩⟩
    simp only [applyOp, disable_all_filters, List.getElem?_map, hget]
    rfl
  | ingest build_expr_context block =>
    obtain ⟨g, hg, h1, h2⟩ := insert_loop_flags build_expr_context block fs i f hget
    exact ⟨g, hg, flag_le_of_eq h1 h2⟩
  | publish => exact ⟨f, hget, flag_le_refl f⟩
  | export_state => exact ⟨f, hget, flag_le_refl f⟩
  | import_state ctx =>
    obtain ⟨g, hg, h1, h2⟩ := copy_from_flags ctx fs i f hget
    exact ⟨g, hg, flag_le_of_eq h1 h2⟩

/-- C7: across any sequence of coordinator operations, the ignored and
disabled flags of the handle at each position are monotone — once true they
are never observed false afterward. -/
theorem flags_monotonic :
    ∀ (ops : List Op) (fs : List IRuntimeFilter) (i : Nat) (f g : IRuntimeFilter),
      fs[i]? = some f → (run_ops ops fs)[i]? = some g →
      (f.ignored = true → g.ignored = true) ∧ (f.disabled = true → g.disabled = true)
  | [], fs, i, f, g, hget, hrun => by
    simp only [run_ops, List.foldl_nil] at hrun
    rw [hget] at hrun
    cases hrun
    exact ⟨fun h => h, fun h => h⟩
  | op :: ops, fs, i, f, g, hget, hrun => by
    obtain ⟨h, hh, hle⟩ := applyOp_flag op fs i f hget
    simp only [run_ops, List.foldl_cons] at hrun
    have ih := flags_monotonic ops (applyOp op fs) i h g hh hrun
    exact (flag_le_trans hle ih : flag_le f g)

/-- Witness for C7: a disabled then fully-ignored, pruned, published handle
still has both flags. -/
theorem flags_monotonic_witness :
    ((run_ops [Op.disable_all, Op.ignore_all, Op.prune, Op.publish] [f0])[0]?).isSome = true ∧
    (∀ g, (run_ops [Op.disable_all, Op.ignore_all, Op.prune, Op.publish] [f0])[0]? = some g →
      g.disabled = true) := by
  constructor
  · decide
  · intro g hg
    exact (flags_monotonic [Op.ignore_all, Op.prune, Op.publish]
      (applyOp Op.disable_all [f0]) 0 (set_disabled f0) g (by decide) (by
        simpa [run_ops] using hg)).2 rfl

end doris
